import Mathlib

/-!
Verification of the connection-management and request-correlation core of the
`queqiao-node-sdk` repository, shallowly embedded in Lean 4.

The embedding mirrors the TypeScript source:
* JavaScript `Map`s become association lists (`List (String × α)`) with
  `mget` / `mset` / `mdel` reproducing `Map.get` / `Map.set` / `Map.delete`
  (insertion order preserved, in-place update of an existing key).
* Stateful classes become explicit state records; methods become functions
  from state to state paired with a list of observable actions (emitted
  events, timers started or cleared, sockets closed).
* `throw` in fallible code becomes `Except String`.
-/

namespace QueQiao

/-! ## Association-list maps (JavaScript `Map` / plain-object semantics) -/

/-- `Map.get key` — first binding of `key`, if any. -/
def mget {α : Type} : List (String × α) → String → Option α
  | [], _ => none
  | (k, v) :: rest, key => if k = key then some v else mget rest key

/-- `Map.set key val` — update in place if present, else append (insertion order). -/
def mset {α : Type} : List (String × α) → String → α → List (String × α)
  | [], key, val => [(key, val)]
  | (k, v) :: rest, key, val =>
    if k = key then (k, val) :: rest else (k, v) :: mset rest key val

/-- `Map.delete key` — remove the first binding of `key`. -/
def mdel {α : Type} : List (String × α) → String → List (String × α)
  | [], _ => []
  | (k, v) :: rest, key => if k = key then rest else (k, v) :: mdel rest key

/-- The keys of an association list. -/
def mkeys {α : Type} (m : List (String × α)) : List String := m.map (·.1)

/-- JavaScript truthiness for an optional string: `undefined` and `""` are falsy. -/
def optNonempty : Option String → Option String
  | none => none
  | some s => if s = "" then none else some s

/-! ## Kernel-computable string primitives (JS `trim`, `toLowerCase`,
`startsWith`, `slice`) -/

/-- JavaScript `String.prototype.trim()`. -/
def strTrim (s : String) : String :=
  ⟨((s.data.dropWhile Char.isWhitespace).reverse.dropWhile Char.isWhitespace).reverse⟩

/-- JavaScript `String.prototype.toLowerCase()`. -/
def strToLower (s : String) : String := ⟨s.data.map Char.toLower⟩

/-- JavaScript `String.prototype.startsWith(pre)`. -/
def strStartsWith (s pre : String) : Bool := pre.data.isPrefixOf s.data

/-- JavaScript `String.prototype.slice(n)` for a non-negative `n`. -/
def strDrop (s : String) (n : Nat) : String := ⟨s.data.drop n⟩

/-! ## Header normalization and handshake validation (`src/headers.ts`) -/

/-- The fixed `x-client-origin` constant injected by the SDK. -/
def sdkClientOrigin : String := "queqiao-node-sdk"

/-- `normalizeBearer(token)`: strip a case-insensitive `Bearer ` prefix if
present, trim, and re-prefix with canonical `Bearer `. -/
def normalizeBearer (token : String) : String :=
  let trimmed := strTrim token
  if strStartsWith (strToLower trimmed) "bearer " then "Bearer " ++ strTrim (strDrop trimmed 7)
  else "Bearer " ++ trimmed

/-- `normalizeOptionalString(value, field)` (`src/utils.ts`): `undefined` stays
absent; a string is trimmed and must be non-empty. -/
def normalizeOptionalString (value : Option String) (field : String) :
    Except String (Option String) :=
  match value with
  | none => .ok none
  | some s =>
    let t := strTrim s
    if t = "" then .error (field ++ " cannot be empty") else .ok (some t)

/-- One entry of the `normalizeHeaderValue` loop: skip a falsy value, lower
the key, trim the value, skip values that trim to empty. -/
def nhvStep (acc : List (String × String)) (kv : String × String) : List (String × String) :=
  if kv.2 = "" then acc
  else
    let trimmed := strTrim kv.2
    if trimmed = "" then acc else mset acc (strToLower kv.1) trimmed

/-- `normalizeHeaderValue(headers)`: lower-case every key, trim every value,
drop falsy keys and values that trim to the empty string. -/
def normalizeHeaderValue (headers : List (String × String)) : List (String × String) :=
  headers.foldl nhvStep []

/-- `assertHeaderMatch(headers, key, value)`: a present caller value must agree
with the mandated value; the `authorization` key is compared after bearer
normalization of both sides. -/
def assertHeaderMatch (headers : List (String × String)) (key value : String) :
    Except String Unit :=
  match mget headers key with
  | none => .ok ()
  | some v =>
    if v = "" then .ok ()
    else if key = "authorization" then
      if normalizeBearer v ≠ normalizeBearer value then
        .error ("Header conflict: " ++ key)
      else .ok ()
    else if v ≠ value then .error ("Header conflict: " ++ key) else .ok ()

/-- `matchAuthorization(expectedToken, incoming)`: bearer-normalize both sides;
a falsy incoming value never matches. -/
def matchAuthorization (expectedToken : String) (incoming : Option String) : Bool :=
  match optNonempty incoming with
  | some s => decide (normalizeBearer s = normalizeBearer expectedToken)
  | none => false

/-- `buildHeaders({headers, selfName, accessToken})`: merge caller headers with
the mandated identity, client-origin and authorization fields, failing on any
conflict. -/
def buildHeaders (headers : List (String × String)) (selfName accessToken : Option String) :
    Except String (List (String × String)) :=
  let base := normalizeHeaderValue headers
  match normalizeOptionalString selfName "selfName" with
  | .error e => .error e
  | .ok sn =>
    match normalizeOptionalString accessToken "accessToken" with
    | .error e => .error e
    | .ok tok =>
      let step1 : Except String (List (String × String)) :=
        match sn with
        | some n =>
          match assertHeaderMatch base "x-self-name" n with
          | .error e => .error e
          | .ok _ => .ok (mset base "x-self-name" n)
        | none => .ok base
      match step1 with
      | .error e => .error e
      | .ok base1 =>
        match assertHeaderMatch base1 "x-client-origin" sdkClientOrigin with
        | .error e => .error e
        | .ok _ =>
          let base2 := mset base1 "x-client-origin" sdkClientOrigin
          match tok with
          | some t =>
            let token := normalizeBearer t
            match assertHeaderMatch base2 "authorization" token with
            | .error e => .error e
            | .ok _ => .ok (mset base2 "authorization" token)
          | none => .ok base2

/-- Header policy used when validating an inbound reverse handshake. -/
structure HeaderPolicy where
  strict : Bool
  expectedSelfName : Option String
  expectedAccessToken : Option String
  deriving Repr, DecidableEq

/-- Result of `validateNormalizedHeaders`. -/
structure ValidationResult where
  ok : Bool
  reason : Option String
  deriving Repr, DecidableEq

/-- `validateNormalizedHeaders(normalized, policy)`: success when non-strict;
under strict policy requires a non-empty identity, an optional expected
identity and an optional expected bearer token. -/
def validateNormalizedHeaders (normalized : List (String × String))
    (policy : HeaderPolicy) : ValidationResult :=
  if !policy.strict then ⟨true, none⟩
  else
    match optNonempty (mget normalized "x-self-name") with
    | none => ⟨false, some "missing x-self-name header"⟩
    | some selfName =>
      let selfNameOk :=
        match optNonempty policy.expectedSelfName with
        | some e => decide (e = selfName)
        | none => true
      if !selfNameOk then ⟨false, some "x-self-name mismatch"⟩
      else
        match optNonempty policy.expectedAccessToken with
        | some tokenExpected =>
          if !matchAuthorization tokenExpected (mget normalized "authorization") then
            ⟨false, some "authorization mismatch"⟩
          else ⟨true, none⟩
        | none => ⟨true, none⟩

/-! ## Pending request table (`src/pending.ts`, class `PendingRequests`) -/

/-- One pending correlation entry: the stored handler keeps the owning
connection (scope) name; the resolver/rejecter closures and the timer object
are modelled through the observable `PAction`s instead. -/
structure PendingEntry where
  connection : Option String
  deriving Repr, DecidableEq

/-- Observable effects of the pending-table operations: timers started and
cleared, and callers fulfilled or failed (`Nat` stands for the opaque
response payload). -/
inductive PAction where
  | startTimer (key : String) (timeoutMs : Nat)
  | clearTimer (key : String)
  | resolveCaller (key : String) (response : Nat)
  | rejectCaller (key : String) (error : String)
  deriving Repr, DecidableEq

/-- State of a `PendingRequests` instance. -/
structure PendingState where
  pending : List (String × PendingEntry)
  maxRequests : Nat
  deriving Repr, DecidableEq

/-- `getKey(echo, connection)` — `connection ? connection + "::" + echo : echo`
(JS truthiness: an empty connection string behaves like `undefined`). -/
def getKey (echo : String) (connection : Option String) : String :=
  match optNonempty connection with
  | some c => c ++ "::" ++ echo
  | none => echo

/-- `PendingRequests.create(echo, timeoutMs, api, connection)`.
Throws when the table is at capacity (`maxRequests > 0`) or the key exists;
otherwise registers the entry and starts its deadline timer. -/
def pendingCreate (echo : String) (timeoutMs : Nat) (connection : Option String)
    (s : PendingState) : PendingState × List PAction × Except String Unit :=
  let key := getKey echo connection
  if s.maxRequests > 0 ∧ s.pending.length ≥ s.maxRequests then
    (s, [], .error ("Too many pending requests (max " ++ toString s.maxRequests ++ ")"))
  else if (mget s.pending key).isSome then
    (s, [], .error ("Duplicate echo value: " ++ echo))
  else
    ({ s with pending := mset s.pending key ⟨connection⟩ },
     [.startTimer key timeoutMs], .ok ())

/-- `PendingRequests.popHandler(echo, connection)` — scoped key first, bare
`echo` as fallback when a (truthy) connection was supplied; on a hit the timer
is cleared and the entry removed. -/
def popHandler (echo : String) (connection : Option String)
    (s : PendingState) : Option (String × PendingEntry) × PendingState × List PAction :=
  let primaryKey := getKey echo connection
  match mget s.pending primaryKey with
  | some handler =>
    (some (primaryKey, handler), { s with pending := mdel s.pending primaryKey },
     [.clearTimer primaryKey])
  | none =>
    match optNonempty connection with
    | some _ =>
      match mget s.pending echo with
      | some handler =>
        (some (echo, handler), { s with pending := mdel s.pending echo },
         [.clearTimer echo])
      | none => (none, s, [])
    | none => (none, s, [])

/-- `PendingRequests.resolve(echo, response, connection)`. -/
def pendingResolve (echo : String) (response : Nat) (connection : Option String)
    (s : PendingState) : Bool × PendingState × List PAction :=
  match popHandler echo connection s with
  | (none, s', acts) => (false, s', acts)
  | (some (key, _), s', acts) => (true, s', acts ++ [.resolveCaller key response])

/-- `PendingRequests.rejectWhere(predicate, error)` — sweep the table, clearing
the timer, removing the entry and failing the caller for every match. -/
def rejectWhere (pred : PendingEntry → Bool) (error : String)
    (s : PendingState) : PendingState × List PAction :=
  let removed := s.pending.filter (fun kv => pred kv.2)
  ({ s with pending := s.pending.filter (fun kv => !pred kv.2) },
   removed.flatMap (fun kv => [.clearTimer kv.1, .rejectCaller kv.1 error]))

/-- `PendingRequests.rejectAll(error)`. -/
def rejectAll (error : String) (s : PendingState) : PendingState × List PAction :=
  rejectWhere (fun _ => true) error s

/-- `PendingRequests.rejectByConnection(connection, error)`. -/
def rejectByConnection (connection : String) (error : String)
    (s : PendingState) : PendingState × List PAction :=
  rejectWhere (fun handler => handler.connection = some connection) error s

/-- `QueQiaoClient.handleClose` (client facade, `src/client.ts`): on a socket
close it fails every pending request owned by that socket with a
closed-connection error. -/
def clientHandleClosePending (selfName : String) (s : PendingState) :
    PendingState × List PAction :=
  rejectByConnection selfName "WebSocket connection closed" s

/-! ## Reverse connection (`src/connection/reverse.ts`) -/

/-- `WebSocket.OPEN`. -/
def wsOPEN : Nat := 1

/-- A transport socket: an identity plus its `readyState`
(0 connecting, 1 open, 2 closing, 3 closed). -/
structure Socket where
  id : Nat
  readyState : Nat
  deriving Repr, DecidableEq

/-- Mutable state of a `ReverseConnection` that `handleConnection` touches. -/
structure ReverseState where
  sockets : List (String × Socket)
  heartbeatNames : List String
  connectionCounts : List (String × Nat)
  originBySelfName : List (String × String)
  selfNameByOrigin : List (String × String)
  deriving Repr, DecidableEq

/-- A fresh `ReverseConnection`'s maps. -/
def emptyReverseState : ReverseState := ⟨[], [], [], [], []⟩

/-- Observable actions of `ReverseConnection.handleConnection`, in program
order: socket closes, registrations, heartbeat attachment, emitted events and
handler wiring. -/
inductive RAction where
  | rejectClose (code : Nat) (reason : String)
  | registerSocket (selfName : String) (sockId : Nat)
  | startHeartbeatOn (selfName : String)
  | emitReconnect (selfName : String) (attempt : Nat) (delayMs : Nat)
  | emitOpen (selfName : String)
  | wireHandlers (selfName : String) (sockId : Nat)
  | closeSocket (sockId : Nat) (code : Nat) (reason : String)
  deriving Repr, DecidableEq

/-- The `ReverseConnection` options consulted by `handleConnection`. -/
structure ReverseConfig where
  headerPolicy : HeaderPolicy
  rejectDuplicateOrigin : Bool
  deriving Repr, DecidableEq

/-- `stopHeartbeat(selfName)` — drop the stop-handle for `selfName`, if any. -/
def hbStop (l : List String) (n : String) : List String := l.filter (fun x => x ≠ n)

/-- `heartbeatStops.set(selfName, stop)` — presence-level model. -/
def hbSet (l : List String) (n : String) : List String := if n ∈ l then l else l ++ [n]

/-- The explicit authorization check `handleConnection` performs when the
policy is non-strict but an access token is configured. -/
def authExplicitOk (cfg : ReverseConfig) (normalized : List (String × String)) : Bool :=
  if !cfg.headerPolicy.strict then
    match optNonempty cfg.headerPolicy.expectedAccessToken with
    | some tokenExpected => matchAuthorization tokenExpected (mget normalized "authorization")
    | none => true
  else true

/-- The early-return guard chain of `handleConnection`: header validation, the
explicit non-strict authorization check, duplicate-origin rejection and the
required identity name. Returns the rejection reason or the accepted name. -/
def screenConnection (cfg : ReverseConfig) (s : ReverseState)
    (normalized : List (String × String)) : Except String String :=
  let vr := validateNormalizedHeaders normalized cfg.headerPolicy
  if !vr.ok then .error (vr.reason.getD "invalid headers")
  else
    if !authExplicitOk cfg normalized then .error "authorization mismatch"
    else
      let incomingOrigin := optNonempty (mget normalized "x-client-origin")
      let dup :=
        cfg.rejectDuplicateOrigin &&
          (match incomingOrigin with
           | some o => (mget s.selfNameByOrigin o).isSome
           | none => false)
      if dup then .error "duplicate client origin"
      else
        match optNonempty (mget normalized "x-self-name") with
        | none => .error "missing x-self-name header"
        | some selfName => .ok selfName

/-- The acceptance path of `handleConnection` (source lines 233–274): stop the
old heartbeat, clear the old origin mapping, register the new socket, record
the new origin, start the heartbeat, bump the connection count, emit
reconnect/open, wire the handlers, and finally close a still-open predecessor. -/
def acceptConnection (s : ReverseState) (sock : Socket) (selfName : String)
    (incomingOrigin : Option String) : ReverseState × List RAction :=
  let existing := mget s.sockets selfName
  let s1 := { s with heartbeatNames := hbStop s.heartbeatNames selfName }
  let s2 :=
    match mget s1.originBySelfName selfName with
    | some po =>
      if mget s1.selfNameByOrigin po = some selfName then
        { s1 with selfNameByOrigin := mdel s1.selfNameByOrigin po }
      else s1
    | none => s1
  let s3 := { s2 with originBySelfName := mdel s2.originBySelfName selfName }
  let s4 := { s3 with sockets := mset s3.sockets selfName sock }
  let s5 :=
    match incomingOrigin with
    | some o =>
      { s4 with originBySelfName := mset s4.originBySelfName selfName o,
                selfNameByOrigin := mset s4.selfNameByOrigin o selfName }
    | none => s4
  let s6 := { s5 with heartbeatNames := hbSet s5.heartbeatNames selfName }
  let count := (mget s6.connectionCounts selfName).getD 0 + 1
  let s7 := { s6 with connectionCounts := mset s6.connectionCounts selfName count }
  let acts :=
    [RAction.registerSocket selfName sock.id, RAction.startHeartbeatOn selfName]
      ++ (if count > 1 then [RAction.emitReconnect selfName (count - 1) 0] else [])
      ++ [RAction.emitOpen selfName, RAction.wireHandlers selfName sock.id]
      ++ (match existing with
          | some e =>
            if e.readyState = wsOPEN then
              [RAction.closeSocket e.id 1001 "replaced by new connection"]
            else []
          | none => [])
  (s7, acts)

/-- `ReverseConnection.handleConnection(socket, request)`. -/
def handleConnection (cfg : ReverseConfig) (s : ReverseState) (sock : Socket)
    (rawHeaders : List (String × String)) : ReverseState × List RAction :=
  let normalized := normalizeHeaderValue rawHeaders
  match screenConnection cfg s normalized with
  | .error reason => (s, [RAction.rejectClose 1008 reason])
  | .ok selfName =>
    acceptConnection s sock selfName (optNonempty (mget normalized "x-client-origin"))

/-! ## Forward connection reconnect state machine (`src/connection/forward.ts`) -/

/-- The reconnect-relevant fields of a `ForwardConnection`. -/
structure FRState where
  reconnectAttempt : Nat
  reconnectDelayMs : Nat
  timerSet : Bool
  deriving Repr, DecidableEq

/-- `scheduleReconnect()`: no-op when a timer is already pending; otherwise
choose `min(reconnectDelayMs, cap)`, bump the attempt counter, arm the timer,
double the stored delay (capped) and emit `reconnect(attempt, delay)`. -/
def scheduleReconnect (cap : Nat) (s : FRState) : FRState × Option (Nat × Nat) :=
  if s.timerSet then (s, none)
  else
    let delay := min s.reconnectDelayMs cap
    let attempt := s.reconnectAttempt + 1
    (⟨attempt, min (delay * 2) cap, true⟩, some (attempt, delay))

/-- `handleOpen` (reconnect part): reset the attempt counter and the delay. -/
def handleOpenReset (base : Nat) (s : FRState) : FRState :=
  { s with reconnectAttempt := 0, reconnectDelayMs := base }

/-- The scheduled timer firing (`this.reconnectTimer = undefined`). -/
def fireReconnectTimer (s : FRState) : FRState := { s with timerSet := false }

/-- Reconnect state right after a successful open (constructor state likewise:
`reconnectDelayMs` starts at the base interval, no timer pending). -/
def initAfterOpen (base : Nat) : FRState := ⟨0, base, false⟩

/-- A run of `n` consecutive failed reconnect cycles after a successful open:
each cycle is the pending timer firing, the re-connect attempt failing with an
unexpected close, and `scheduleReconnect` running again. Returns the final
state and the emitted `reconnect (attempt, delay)` notifications in order. -/
def reconnectRun (base cap : Nat) : Nat → FRState × List (Nat × Nat)
  | 0 => (initAfterOpen base, [])
  | n + 1 =>
    let prev := reconnectRun base cap n
    let step := scheduleReconnect cap (fireReconnectTimer prev.1)
    (step.1, prev.2 ++ step.2.toList)

/-- Modelled from the spec: the delay sequence the specification prescribes —
`delay_1 = base`, `delay_{n+1} = min(delay_n × 2, cap)`. -/
def claimDelay (base cap : Nat) : Nat → Nat
  | 0 => base
  | 1 => base
  | n + 2 => min (claimDelay base cap (n + 1) * 2) cap

/-! ## Option normalization (`src/options.ts`) and heartbeat (`src/connection/heartbeat.ts`) -/

/-- `Number.MAX_SAFE_INTEGER`. -/
def maxSafeInteger : Nat := 9007199254740991

/-- `normalizePositiveInt(value, fallback)`: absent or non-positive falls back;
otherwise clamp to the safe-integer range. -/
def normalizePositiveInt (value : Option Int) (fallback : Nat) : Nat :=
  match value with
  | none => fallback
  | some v => if v ≤ 0 then fallback else min v.toNat maxSafeInteger

/-- `normalizeNonNegativeInt(value, fallback)`. -/
def normalizeNonNegativeInt (value : Option Int) (fallback : Nat) : Nat :=
  match value with
  | none => fallback
  | some v => if v < 0 then fallback else min v.toNat maxSafeInteger

/-- `normalizeClientOptions` (reconnect intervals): the base interval defaults
to 1000, and the cap is forced up to at least the base
(`Math.max(reconnectIntervalMs, …)`, default 30000). -/
def normalizeReconnectIntervals (i c : Option Int) : Nat × Nat :=
  let base := normalizePositiveInt i 1000
  (base, max base (normalizePositiveInt c 30000))

/-- `normalizeClientOptions` (heartbeat fields, `src/options.ts` lines 212–224):
both default to 0; a zero interval forces a zero timeout; a positive interval
with a zero timeout gets `2 × interval`. -/
def resolveHeartbeatOptions (i t : Option Int) : Nat × Nat :=
  let interval := normalizeNonNegativeInt i 0
  let timeout := normalizeNonNegativeInt t 0
  if interval = 0 then (interval, 0)
  else if timeout = 0 then (interval, interval * 2)
  else (interval, timeout)

/-- What `startHeartbeat` attaches to the socket. -/
inductive HeartbeatSetup where
  | noop
  | attached (intervalMs timeoutMs : Nat)
  deriving Repr, DecidableEq

/-- `startHeartbeat(ws, options)`: a non-positive interval attaches nothing and
returns a no-op stop function; otherwise a ping interval is installed. -/
def startHeartbeat (intervalMs timeoutMs : Int) : HeartbeatSetup :=
  if intervalMs ≤ 0 then .noop else .attached intervalMs.toNat timeoutMs.toNat

/-! ## `connect()` idempotence (`src/connection/forward.ts`, `src/connection/reverse.ts`) -/

/-- How a call to `connect()` returns. -/
inductive ConnectOutcome where
  | immediate
  | shared (pid : Nat)
  | started (pid : Nat)
  deriving Repr, DecidableEq

/-- The fields of `ForwardConnection` consulted by `connect()`. -/
structure FCState where
  wsReadyState : Option Nat
  connectPromise : Option Nat
  closing : Bool
  deriving Repr, DecidableEq

/-- `ForwardConnection.isOpen()`. -/
def fcIsOpen (s : FCState) : Bool :=
  match s.wsReadyState with
  | some r => decide (r = wsOPEN)
  | none => false

/-- `ForwardConnection.connect()` (synchronous part): return immediately when
open, share the in-flight promise, else create a fresh socket (CONNECTING) and
register a new attempt promise. -/
def fcConnect (s : FCState) (freshPid : Nat) : FCState × ConnectOutcome :=
  if fcIsOpen s then (s, .immediate)
  else
    match s.connectPromise with
    | some p => (s, .shared p)
    | none =>
      ({ wsReadyState := some 0, connectPromise := some freshPid, closing := false },
       .started freshPid)

/-- The fields of `ReverseConnection` consulted by `connect()`. -/
structure RCState where
  serverExists : Bool
  connectPromise : Option Nat
  deriving Repr, DecidableEq

/-- `ReverseConnection.connect()` (synchronous part): return immediately once
the server exists, share the in-flight bind promise, else create the server
and register a new bind promise. -/
def rcConnect (s : RCState) (freshPid : Nat) : RCState × ConnectOutcome :=
  if s.serverExists then (s, .immediate)
  else
    match s.connectPromise with
    | some p => (s, .shared p)
    | none => ({ serverExists := true, connectPromise := some freshPid }, .started freshPid)

/-- Events the listening server can deliver to the bind promise executor. -/
inductive RevServerEvent where
  | listening
  | errored (message : String)
  deriving Repr, DecidableEq

/-- Decidable equality for the bind promise's settlement value. -/
def exceptEqDec : (a b : Except String Unit) → Decidable (a = b)
  | .ok (), .ok () => isTrue rfl
  | .ok (), .error _ => isFalse (fun h => Except.noConfusion h)
  | .error _, .ok () => isFalse (fun h => Except.noConfusion h)
  | .error x, .error y =>
    if h : x = y then isTrue (by rw [h])
    else isFalse (fun hh => h (by cases hh; rfl))

instance : DecidableEq (Except String Unit) := exceptEqDec

/-- The executor's observable state: the `listening` flag, the promise's
settlement (settles at most once), whether `this.server` is still set, and the
errors merely logged after listening started. -/
structure BindRun where
  listening : Bool
  settled : Option (Except String Unit)
  serverExists : Bool
  loggedErrors : List String
  deriving Repr, DecidableEq

/-- Executor state right after `new WebSocketServer(...)`. -/
def initialBindRun : BindRun := ⟨false, none, true, []⟩

/-- One server event: `once('listening')` resolves; an error before listening
resets `this.server` and rejects; an error after listening is only logged. -/
def rcBindStep (r : BindRun) : RevServerEvent → BindRun
  | .listening =>
    if r.listening then r
    else { r with listening := true, settled := r.settled.orElse (fun _ => some (.ok ())) }
  | .errored msg =>
    if r.listening then { r with loggedErrors := r.loggedErrors ++ [msg] }
    else { r with serverExists := false,
                  settled := r.settled.orElse (fun _ => some (.error msg)) }

/-- Fold the server's event sequence through the bind executor. -/
def rcBindEvents (evs : List RevServerEvent) : BindRun :=
  evs.foldl rcBindStep initialBindRun

/-! ## Helper lemmas about the map operations -/

@[simp] theorem mget_nil {α : Type} (key : String) :
    mget ([] : List (String × α)) key = none := rfl

@[simp] theorem mget_cons {α : Type} (k key : String) (v : α) (rest : List (String × α)) :
    mget ((k, v) :: rest) key = if k = key then some v else mget rest key := rfl

@[simp] theorem mset_nil {α : Type} (key : String) (val : α) :
    mset ([] : List (String × α)) key val = [(key, val)] := rfl

@[simp] theorem mset_cons {α : Type} (k key : String) (v val : α) (rest : List (String × α)) :
    mset ((k, v) :: rest) key val
      = if k = key then (k, val) :: rest else (k, v) :: mset rest key val := rfl

@[simp] theorem mdel_nil {α : Type} (key : String) :
    mdel ([] : List (String × α)) key = [] := rfl

@[simp] theorem mdel_cons {α : Type} (k key : String) (v : α) (rest : List (String × α)) :
    mdel ((k, v) :: rest) key = if k = key then rest else (k, v) :: mdel rest key := rfl

theorem mget_mset {α : Type} (m : List (String × α)) (k k' : String) (v : α) :
    mget (mset m k v) k' = if k = k' then some v else mget m k' := by
  induction m with
  | nil => by_cases h : k = k' <;> simp [mget, mset, h]
  | cons hd tl ih =>
    obtain ⟨hk, hv⟩ := hd
    by_cases h1 : hk = k
    · subst h1
      by_cases h2 : hk = k' <;> simp [mset, mget, h2]
    · by_cases h2 : hk = k'
      · subst h2
        have h3 : ¬k = hk := fun hh => h1 hh.symm
        simp [mset, mget, h1, h3]
      · simp [mset, mget, h1, h2, ih]

theorem mget_eq_none_of_not_mem {α : Type} (m : List (String × α)) (k : String)
    (h : k ∉ mkeys m) : mget m k = none := by
  induction m with
  | nil => rfl
  | cons hd tl ih =>
    obtain ⟨hk, hv⟩ := hd
    have h1 : ¬hk = k := by
      intro hh
      exact h (by simp [mkeys, hh])
    have h2 : k ∉ mkeys tl := by
      intro hh
      apply h
      simp only [mkeys, List.map_cons, List.mem_cons]
      exact Or.inr (by simpa [mkeys] using hh)
    simp [mget, h1, ih h2]

theorem mkeys_mset {α : Type} (m : List (String × α)) (k : String) (v : α) :
    mkeys (mset m k v) = if k ∈ mkeys m then mkeys m else mkeys m ++ [k] := by
  induction m with
  | nil => simp [mset, mkeys]
  | cons hd tl ih =>
    obtain ⟨hk, hv⟩ := hd
    by_cases h1 : hk = k
    · subst h1
      simp [mset, mkeys]
    · simp only [mset, mkeys, List.map_cons, if_neg h1]
      by_cases h2 : k ∈ mkeys tl
      · simp [mkeys] at h2 ih ⊢
        simp [h2, ih, Ne.symm h1]
      · simp [mkeys] at h2 ih ⊢
        simp [h2, ih, Ne.symm h1]

theorem mkeys_mset_nodup {α : Type} (m : List (String × α)) (k : String) (v : α)
    (h : (mkeys m).Nodup) : (mkeys (mset m k v)).Nodup := by
  rw [mkeys_mset]
  by_cases hk : k ∈ mkeys m
  · simpa [hk] using h
  · simp only [hk, if_neg, ite_false]
    simpa [List.nodup_append, hk] using h

theorem mget_mdel {α : Type} (m : List (String × α)) (k k' : String)
    (h : (mkeys m).Nodup) :
    mget (mdel m k) k' = if k = k' then none else mget m k' := by
  induction m with
  | nil => simp [mget, mdel]
  | cons hd tl ih =>
    obtain ⟨hk, hv⟩ := hd
    simp only [mkeys, List.map_cons, List.nodup_cons] at h
    obtain ⟨hnotin, hnd⟩ := h
    by_cases h1 : hk = k
    · subst h1
      by_cases h2 : hk = k'
      · subst h2
        simp only [mdel, if_pos rfl, if_pos rfl]
        exact mget_eq_none_of_not_mem tl hk (by simpa [mkeys] using hnotin)
      · simp [mdel, mget, h2]
    · by_cases h2 : k = k'
      · subst h2
        have h3 : ¬hk = k := h1
        simp [mdel, mget, h1, h3, ih hnd]
      · simp only [mdel, if_neg h1, mget]
        by_cases h3 : hk = k'
        · simp [h3, if_neg h2]
        · simp [h3, ih hnd, h2]

theorem mset_of_mget_none {α : Type} (m : List (String × α)) (k : String) (v : α)
    (h : mget m k = none) : mset m k v = m ++ [(k, v)] := by
  induction m with
  | nil => rfl
  | cons hd tl ih =>
    obtain ⟨hk, hv⟩ := hd
    simp only [mget] at h
    by_cases h1 : hk = k
    · simp [h1] at h
    · simp only [if_neg h1] at h
      simp [mset, h1, ih h]

/-! ## Claim C4 — `PendingRequests.create` -/

/-- Claim C4: `create(id, timeoutMs, api, scope?)` throws if the table already
holds its configured maximum number of entries, and throws if an entry with
the same (id, scope) key already exists; in either failure case the table is
unchanged (nothing overwritten, nothing added), and on success exactly one new
entry is appended under the computed key with its deadline timer started. -/
theorem claim_C4_pendingCreate (echo : String) (timeoutMs : Nat) (conn : Option String)
    (s : PendingState) (hmax : 0 < s.maxRequests) :
    (s.pending.length = s.maxRequests →
       pendingCreate echo timeoutMs conn s =
         (s, [], Except.error
           ("Too many pending requests (max " ++ toString s.maxRequests ++ ")"))) ∧
    (s.pending.length < s.maxRequests →
       (mget s.pending (getKey echo conn)).isSome = true →
       pendingCreate echo timeoutMs conn s =
         (s, [], Except.error ("Duplicate echo value: " ++ echo))) ∧
    (s.pending.length < s.maxRequests →
       mget s.pending (getKey echo conn) = none →
       pendingCreate echo timeoutMs conn s =
         ({ s with pending := s.pending ++ [(getKey echo conn, ⟨conn⟩)] },
          [PAction.startTimer (getKey echo conn) timeoutMs], Except.ok ())) := by
  refine ⟨?_, ?_, ?_⟩
  · intro hlen
    simp only [pendingCreate]
    rw [if_pos ⟨hmax, hlen.ge⟩]
  · intro hlen hsome
    have hcond : ¬(s.maxRequests > 0 ∧ s.pending.length ≥ s.maxRequests) :=
      fun hh => absurd hh.2 (not_le.mpr hlen)
    simp only [pendingCreate]
    rw [if_neg hcond, if_pos hsome]
  · intro hlen hnone
    have hcond : ¬(s.maxRequests > 0 ∧ s.pending.length ≥ s.maxRequests) :=
      fun hh => absurd hh.2 (not_le.mpr hlen)
    have hns : ¬((mget s.pending (getKey echo conn)).isSome = true) := by
      simp [hnone]
    simp only [pendingCreate]
    rw [if_neg hcond, if_neg hns, mset_of_mget_none _ _ _ hnone]

/-- Witness for C4 at concrete inputs: a full table rejects, a duplicate key
rejects, and a fresh key is appended with its timer started. -/
theorem claim_C4_pendingCreate_witness :
    pendingCreate "a" 5 none ⟨[("a", ⟨none⟩)], 1⟩ =
      (⟨[("a", ⟨none⟩)], 1⟩, [], Except.error "Too many pending requests (max 1)") ∧
    pendingCreate "a" 5 none ⟨[("a", ⟨none⟩)], 2⟩ =
      (⟨[("a", ⟨none⟩)], 2⟩, [], Except.error "Duplicate echo value: a") ∧
    pendingCreate "b" 5 none ⟨[("a", ⟨none⟩)], 2⟩ =
      (⟨[("a", ⟨none⟩), ("b", ⟨none⟩)], 2⟩, [PAction.startTimer "b" 5], Except.ok ()) := by
  refine ⟨?_, ?_, ?_⟩
  · exact (claim_C4_pendingCreate "a" 5 none ⟨[("a", ⟨none⟩)], 1⟩ (by decide)).1 rfl
  · exact (claim_C4_pendingCreate "a" 5 none ⟨[("a", ⟨none⟩)], 2⟩ (by decide)).2.1
      (by decide) (by decide)
  · exact (claim_C4_pendingCreate "b" 5 none ⟨[("a", ⟨none⟩)], 2⟩ (by decide)).2.2
      (by decide) (by decide)

/-! ## Claim C5 — `PendingRequests.resolve` -/

/-- Claim C5: `resolve(id, response, scope)` looks up the scoped key first and,
when that misses and a scope was supplied, falls back to the bare id; on a hit
it clears the deadline timer, removes exactly that entry, fulfills the caller
with the response and returns true; when neither key matches it returns false
and the table is unchanged. -/
theorem claim_C5_pendingResolve (echo : String) (resp : Nat) (conn : Option String)
    (s : PendingState) :
    (∀ h, mget s.pending (getKey echo conn) = some h →
       pendingResolve echo resp conn s =
         (true, { s with pending := mdel s.pending (getKey echo conn) },
          [PAction.clearTimer (getKey echo conn),
           PAction.resolveCaller (getKey echo conn) resp])) ∧
    ((optNonempty conn).isSome = true →
       mget s.pending (getKey echo conn) = none →
       ∀ h, mget s.pending echo = some h →
       pendingResolve echo resp conn s =
         (true, { s with pending := mdel s.pending echo },
          [PAction.clearTimer echo, PAction.resolveCaller echo resp])) ∧
    (mget s.pending (getKey echo conn) = none →
       mget s.pending echo = none →
       pendingResolve echo resp conn s = (false, s, [])) := by
  refine ⟨?_, ?_, ?_⟩
  · intro h hm
    simp [pendingResolve, popHandler, hm]
  · intro hc hm1 h hm2
    obtain ⟨c, hc'⟩ := Option.isSome_iff_exists.mp hc
    simp [pendingResolve, popHandler, hm1, hc', hm2]
  · intro hm1 hm2
    cases hco : optNonempty conn with
    | none => simp [pendingResolve, popHandler, hm1, hco]
    | some c => simp [pendingResolve, popHandler, hm1, hco, hm2]

/-- Witness for C5 at concrete inputs: a scoped hit, a fallback hit on the
bare id, and a double miss. -/
theorem claim_C5_pendingResolve_witness :
    pendingResolve "1" 9 (some "x") ⟨[("x::1", ⟨some "x"⟩)], 0⟩ =
      (true, ⟨[], 0⟩, [PAction.clearTimer "x::1", PAction.resolveCaller "x::1" 9]) ∧
    pendingResolve "1" 9 (some "x") ⟨[("1", ⟨none⟩)], 0⟩ =
      (true, ⟨[], 0⟩, [PAction.clearTimer "1", PAction.resolveCaller "1" 9]) ∧
    pendingResolve "1" 9 (some "x") ⟨[("y::1", ⟨some "y"⟩)], 0⟩ =
      (false, ⟨[("y::1", ⟨some "y"⟩)], 0⟩, []) := by
  refine ⟨?_, ?_, ?_⟩
  · exact (claim_C5_pendingResolve "1" 9 (some "x") ⟨[("x::1", ⟨some "x"⟩)], 0⟩).1
      ⟨some "x"⟩ (by decide)
  · exact (claim_C5_pendingResolve "1" 9 (some "x") ⟨[("1", ⟨none⟩)], 0⟩).2.1
      (by decide) (by decide) ⟨none⟩ (by decide)
  · exact (claim_C5_pendingResolve "1" 9 (some "x") ⟨[("y::1", ⟨some "y"⟩)], 0⟩).2.2
      (by decide) (by decide)

/-! ## Claim C6 — scope sweeps on close -/

/-- Claim C6: when the socket named `n` closes, every pending entry whose
owning scope is `n` is removed, its timer cleared and its caller rejected with
the closed-connection error, while entries owned by other scopes are kept;
`rejectAll` removes and rejects every entry regardless of scope. -/
theorem claim_C6_close_sweeps (selfName err : String) (s : PendingState) :
    ((clientHandleClosePending selfName s).1.pending
       = s.pending.filter (fun kv => !(decide (kv.2.connection = some selfName)))) ∧
    (∀ kv, kv ∈ s.pending → kv.2.connection = some selfName →
       kv ∉ (clientHandleClosePending selfName s).1.pending ∧
       PAction.clearTimer kv.1 ∈ (clientHandleClosePending selfName s).2 ∧
       PAction.rejectCaller kv.1 "WebSocket connection closed"
         ∈ (clientHandleClosePending selfName s).2) ∧
    (∀ kv, kv ∈ s.pending → kv.2.connection ≠ some selfName →
       kv ∈ (clientHandleClosePending selfName s).1.pending) ∧
    ((rejectAll err s).1.pending = []) ∧
    (∀ kv, kv ∈ s.pending → PAction.rejectCaller kv.1 err ∈ (rejectAll err s).2) := by
  refine ⟨rfl, ?_, ?_, ?_, ?_⟩
  · intro kv hmem hconn
    refine ⟨?_, ?_, ?_⟩
    · intro hin
      have := (List.mem_filter.mp hin).2
      simp [hconn] at this
    · exact List.mem_flatMap.mpr
        ⟨kv, List.mem_filter.mpr ⟨hmem, by simp [hconn]⟩, by simp⟩
    · exact List.mem_flatMap.mpr
        ⟨kv, List.mem_filter.mpr ⟨hmem, by simp [hconn]⟩, by simp⟩
  · intro kv hmem hconn
    exact List.mem_filter.mpr ⟨hmem, by simp [hconn]⟩
  · simp [rejectAll, rejectWhere]
  · intro kv hmem
    exact List.mem_flatMap.mpr ⟨kv, by simpa [rejectAll, rejectWhere] using hmem, by simp⟩

/-- Witness for C6 at a concrete two-scope table. -/
theorem claim_C6_close_sweeps_witness :
    ("x::1", (⟨some "x"⟩ : PendingEntry))
      ∉ (clientHandleClosePending "x" ⟨[("x::1", ⟨some "x"⟩), ("y::1", ⟨some "y"⟩)], 0⟩).1.pending ∧
    PAction.rejectCaller "x::1" "WebSocket connection closed"
      ∈ (clientHandleClosePending "x" ⟨[("x::1", ⟨some "x"⟩), ("y::1", ⟨some "y"⟩)], 0⟩).2 ∧
    ("y::1", (⟨some "y"⟩ : PendingEntry))
      ∈ (clientHandleClosePending "x" ⟨[("x::1", ⟨some "x"⟩), ("y::1", ⟨some "y"⟩)], 0⟩).1.pending ∧
    (rejectAll "boom" ⟨[("x::1", ⟨some "x"⟩), ("y::1", ⟨some "y"⟩)], 0⟩).1.pending = [] := by
  have h := claim_C6_close_sweeps "x" "boom" ⟨[("x::1", ⟨some "x"⟩), ("y::1", ⟨some "y"⟩)], 0⟩
  refine ⟨?_, ?_, ?_, ?_⟩
  · exact (h.2.1 ("x::1", ⟨some "x"⟩) (by decide) (by decide)).1
  · exact (h.2.1 ("x::1", ⟨some "x"⟩) (by decide) (by decide)).2.2
  · exact h.2.2.1 ("y::1", ⟨some "y"⟩) (by decide) (by decide)
  · exact h.2.2.2.1

/-! ## Claim C1 — forward reconnect backoff -/

theorem claimDelay_le_cap (base cap : Nat) (h : base ≤ cap) :
    ∀ n, claimDelay base cap n ≤ cap
  | 0 => h
  | 1 => h
  | _ + 2 => min_le_right _ _

theorem reconnectRun_state (base cap : Nat) (h : base ≤ cap) :
    ∀ n, (reconnectRun base cap n).1.reconnectAttempt = n ∧
      (reconnectRun base cap n).1.reconnectDelayMs = claimDelay base cap (n + 1) := by
  intro n
  induction n with
  | zero => exact ⟨rfl, rfl⟩
  | succ n ih =>
    obtain ⟨ha, hd⟩ := ih
    have hle : claimDelay base cap (n + 1) ≤ cap := claimDelay_le_cap base cap h (n + 1)
    simp only [reconnectRun, scheduleReconnect, fireReconnectTimer]
    constructor
    · simp [ha]
    · simp only [hd]
      rw [min_eq_left hle]
      rfl

theorem reconnectRun_emit (base cap : Nat) (h : base ≤ cap) :
    ∀ n, (reconnectRun base cap n).2
      = (List.range n).map (fun k => (k + 1, claimDelay base cap (k + 1))) := by
  intro n
  induction n with
  | zero => rfl
  | succ n ih =>
    obtain ⟨ha, hd⟩ := reconnectRun_state base cap h n
    have hle : claimDelay base cap (n + 1) ≤ cap := claimDelay_le_cap base cap h (n + 1)
    simp only [reconnectRun, scheduleReconnect, fireReconnectTimer]
    rw [List.range_succ, List.map_append]
    simp [ih, ha, hd, min_eq_left hle]

/-- Claim C1: in forward mode with reconnection enabled, the n-th scheduled
reconnect after an unexpected close emits a `reconnect` notification carrying
attempt number n and the delay used for that attempt, where the first delay is
the configured base interval and each following delay is
`min(previous × 2, cap)`; every successful open resets the counter to 0 and
the delay to the base. The hypothesis `base ≤ cap` holds for every normalized
configuration: `normalizeClientOptions` forces the cap up to the base. -/
theorem claim_C1_reconnect_backoff (base cap n : Nat) (h : base ≤ cap) :
    ((reconnectRun base cap n).2
       = (List.range n).map (fun k => (k + 1, claimDelay base cap (k + 1)))) ∧
    (∀ s : FRState, handleOpenReset base s = ⟨0, base, s.timerSet⟩) ∧
    (∀ i c : Option Int,
       (normalizeReconnectIntervals i c).1 ≤ (normalizeReconnectIntervals i c).2) := by
  refine ⟨reconnectRun_emit base cap h n, fun s => rfl, fun i c => ?_⟩
  simp only [normalizeReconnectIntervals]
  exact le_max_left _ _

/-- Witness for C1 at the default intervals (base 1000 ms, cap 30000 ms),
seven consecutive failures: delays 1000, 2000, 4000, 8000, 16000, 30000,
30000 with attempts 1–7; an open resets the state. -/
theorem claim_C1_reconnect_backoff_witness :
    (reconnectRun 1000 30000 7).2
      = (List.range 7).map (fun k => (k + 1, claimDelay 1000 30000 (k + 1))) ∧
    (reconnectRun 1000 30000 7).2
      = [(1, 1000), (2, 2000), (3, 4000), (4, 8000), (5, 16000), (6, 30000), (7, 30000)] ∧
    handleOpenReset 1000 ⟨5, 16000, true⟩ = ⟨0, 1000, true⟩ := by
  refine ⟨(claim_C1_reconnect_backoff 1000 30000 7 (by decide)).1, by decide,
    (claim_C1_reconnect_backoff 1000 30000 7 (by decide)).2.1 ⟨5, 16000, true⟩⟩

/-! ## Claim C10 — heartbeat option normalization and `startHeartbeat` -/

theorem resolveHeartbeat_fst (i t : Option Int) :
    (resolveHeartbeatOptions i t).1 = normalizeNonNegativeInt i 0 := by
  simp only [resolveHeartbeatOptions]
  split
  · rfl
  · split <;> rfl

/-- Claim C10: option normalization forces the heartbeat timeout to 0 whenever
the interval resolves to 0, and to exactly `interval × 2` when the interval is
positive and no positive timeout was supplied; `startHeartbeat` with a
non-positive interval attaches nothing and returns a no-op stop function, and
both heartbeat fields default to 0 (disabled). -/
theorem claim_C10_heartbeat (i t : Option Int) :
    ((resolveHeartbeatOptions i t).1 = 0 → (resolveHeartbeatOptions i t).2 = 0) ∧
    ((resolveHeartbeatOptions i t).1 ≠ 0 → normalizeNonNegativeInt t 0 = 0 →
       (resolveHeartbeatOptions i t).2 = (resolveHeartbeatOptions i t).1 * 2) ∧
    (∀ iv tv : Int, iv ≤ 0 → startHeartbeat iv tv = HeartbeatSetup.noop) ∧
    resolveHeartbeatOptions none none = (0, 0) := by
  refine ⟨?_, ?_, ?_, rfl⟩
  · intro h0
    rw [resolveHeartbeat_fst] at h0
    simp [resolveHeartbeatOptions, h0]
  · intro hne ht
    rw [resolveHeartbeat_fst] at hne
    simp [resolveHeartbeatOptions, hne, ht, resolveHeartbeat_fst]
  · intro iv tv hle
    simp [startHeartbeat, hle]

/-- Witness for C10: a zero interval zeroes the timeout even when a timeout
was supplied; a positive interval with no timeout doubles; `startHeartbeat 0`
is a no-op. -/
theorem claim_C10_heartbeat_witness :
    (resolveHeartbeatOptions (some 0) (some 7)).2 = 0 ∧
    (resolveHeartbeatOptions (some 5) none).2 = (resolveHeartbeatOptions (some 5) none).1 * 2 ∧
    startHeartbeat 0 10 = HeartbeatSetup.noop := by
  refine ⟨(claim_C10_heartbeat (some 0) (some 7)).1 (by decide),
    (claim_C10_heartbeat (some 5) none).2.1 (by decide) rfl,
    (claim_C10_heartbeat none none).2.2.1 0 10 (by decide)⟩

/-! ## Structure of the reverse acceptance path -/

theorem accept_sockets (s : ReverseState) (sock : Socket) (n : String) (o : Option String) :
    (acceptConnection s sock n o).1.sockets = mset s.sockets n sock := by
  cases hpo : mget s.originBySelfName n with
  | none => cases o <;> simp [acceptConnection, hpo]
  | some po =>
    by_cases hb : mget s.selfNameByOrigin po = some n <;> cases o <;>
      simp [acceptConnection, hpo, hb]

theorem accept_counts (s : ReverseState) (sock : Socket) (n : String) (o : Option String) :
    (acceptConnection s sock n o).1.connectionCounts
      = mset s.connectionCounts n ((mget s.connectionCounts n).getD 0 + 1) := by
  cases hpo : mget s.originBySelfName n with
  | none => cases o <;> simp [acceptConnection, hpo]
  | some po =>
    by_cases hb : mget s.selfNameByOrigin po = some n <;> cases o <;>
      simp [acceptConnection, hpo, hb]

theorem accept_acts (s : ReverseState) (sock : Socket) (n : String) (o : Option String) :
    (acceptConnection s sock n o).2 =
      [RAction.registerSocket n sock.id, RAction.startHeartbeatOn n]
        ++ (if (mget s.connectionCounts n).getD 0 + 1 > 1 then
              [RAction.emitReconnect n ((mget s.connectionCounts n).getD 0 + 1 - 1) 0]
            else [])
        ++ [RAction.emitOpen n, RAction.wireHandlers n sock.id]
        ++ (match mget s.sockets n with
            | some e =>
              if e.readyState = wsOPEN then
                [RAction.closeSocket e.id 1001 "replaced by new connection"]
              else []
            | none => []) := by
  cases hpo : mget s.originBySelfName n with
  | none => cases o <;> simp [acceptConnection, hpo]
  | some po =>
    by_cases hb : mget s.selfNameByOrigin po = some n <;> cases o <;>
      simp [acceptConnection, hpo, hb]

/-! ## Claim C3 — reverse peer replacement -/

/-- Claim C3: after every accepted reverse connection at most one socket is
registered per identity name; an accepted connection for an already-known name
replaces the previous registration and clears that name's prior origin
mapping, and a still-open prior socket is closed with 1001 "replaced by new
connection" only after the new socket is registered and its handlers wired. -/
theorem claim_C3_replacement (s : ReverseState) (sock : Socket) (n : String)
    (o : Option String)
    (hnd : (mkeys s.sockets).Nodup) (hnd2 : (mkeys s.selfNameByOrigin).Nodup) :
    mget (acceptConnection s sock n o).1.sockets n = some sock ∧
    (mkeys (acceptConnection s sock n o).1.sockets).Nodup ∧
    (∀ po, mget s.originBySelfName n = some po →
       mget s.selfNameByOrigin po = some n →
       o ≠ some po →
       mget (acceptConnection s sock n o).1.selfNameByOrigin po = none) ∧
    (∀ e, mget s.sockets n = some e → e.readyState = wsOPEN →
       ∃ pre, (acceptConnection s sock n o).2
           = pre ++ [RAction.closeSocket e.id 1001 "replaced by new connection"] ∧
         RAction.registerSocket n sock.id ∈ pre ∧
         RAction.wireHandlers n sock.id ∈ pre) := by
  refine ⟨?_, ?_, ?_, ?_⟩
  · rw [accept_sockets, mget_mset]
    simp
  · rw [accept_sockets]
    exact mkeys_mset_nodup _ _ _ hnd
  · intro po hpo hback hne
    cases o with
    | none =>
      simp only [acceptConnection, hpo, hback, if_pos]
      simp [mget_mdel _ _ _ hnd2]
    | some ov =>
      have hone : ¬ov = po := fun hh => hne (by rw [hh])
      simp only [acceptConnection, hpo, hback, if_pos]
      simp only [mget_mset, if_neg hone]
      simp [mget_mdel _ _ _ hnd2]
  · intro e he hrs
    refine ⟨[RAction.registerSocket n sock.id, RAction.startHeartbeatOn n]
        ++ (if (mget s.connectionCounts n).getD 0 + 1 > 1 then
              [RAction.emitReconnect n ((mget s.connectionCounts n).getD 0 + 1 - 1) 0]
            else [])
        ++ [RAction.emitOpen n, RAction.wireHandlers n sock.id], ?_, ?_, ?_⟩
    · rw [accept_acts]
      simp [he, hrs]
    · simp
    · simp

/-- Witness for C3 at a concrete state: peer "A" (socket 1, open, origin "o")
is replaced by socket 2 arriving with origin "p". -/
theorem claim_C3_replacement_witness :
    mget (acceptConnection ⟨[("A", ⟨1, 1⟩)], ["A"], [("A", 1)], [("A", "o")], [("o", "A")]⟩
        ⟨2, 0⟩ "A" (some "p")).1.sockets "A" = some ⟨2, 0⟩ ∧
    mget (acceptConnection ⟨[("A", ⟨1, 1⟩)], ["A"], [("A", 1)], [("A", "o")], [("o", "A")]⟩
        ⟨2, 0⟩ "A" (some "p")).1.selfNameByOrigin "o" = none ∧
    (∃ pre, (acceptConnection ⟨[("A", ⟨1, 1⟩)], ["A"], [("A", 1)], [("A", "o")], [("o", "A")]⟩
        ⟨2, 0⟩ "A" (some "p")).2
          = pre ++ [RAction.closeSocket 1 1001 "replaced by new connection"] ∧
       RAction.registerSocket "A" 2 ∈ pre ∧ RAction.wireHandlers "A" 2 ∈ pre) := by
  have h := claim_C3_replacement ⟨[("A", ⟨1, 1⟩)], ["A"], [("A", 1)], [("A", "o")], [("o", "A")]⟩
      ⟨2, 0⟩ "A" (some "p") (by decide) (by decide)
  exact ⟨h.1, h.2.2.1 "o" (by decide) (by decide) (by decide),
    h.2.2.2 ⟨1, 1⟩ (by decide) (by decide)⟩

/-! ## Claim C7 — reverse reconnect notification -/

/-- Counterexample to C7 as stated: the second accepted connection for name
"A" raises the connection-attempt count to 2 (which is > 1), but the emitted
reconnect notification carries attempt number 1 — the count minus one — not
the running count 2 the claim asserts. -/
theorem claim_C7_counterexample :
    mget (handleConnection ⟨⟨false, none, none⟩, false⟩
        (handleConnection ⟨⟨false, none, none⟩, false⟩ emptyReverseState ⟨1, 1⟩
          [("x-self-name", "A")]).1
        ⟨2, 0⟩ [("x-self-name", "A")]).1.connectionCounts "A" = some 2 ∧
    RAction.emitReconnect "A" 1 0 ∈
      (handleConnection ⟨⟨false, none, none⟩, false⟩
        (handleConnection ⟨⟨false, none, none⟩, false⟩ emptyReverseState ⟨1, 1⟩
          [("x-self-name", "A")]).1
        ⟨2, 0⟩ [("x-self-name", "A")]).2 ∧
    RAction.emitReconnect "A" 2 0 ∉
      (handleConnection ⟨⟨false, none, none⟩, false⟩
        (handleConnection ⟨⟨false, none, none⟩, false⟩ emptyReverseState ⟨1, 1⟩
          [("x-self-name", "A")]).1
        ⟨2, 0⟩ [("x-self-name", "A")]).2 := by
  refine ⟨by decide, by decide, by decide⟩

/-- Claim C7 as amended: when a connection is accepted for a name whose prior
connection-attempt count is `c ≥ 1` (so the new count `c + 1` is greater
than 1), a reconnect notification is emitted carrying attempt number `c` —
the new connection-attempt count minus one — and a delay of zero. -/
theorem claim_C7_amended (s : ReverseState) (sock : Socket) (n : String)
    (o : Option String) (c : Nat)
    (hc : mget s.connectionCounts n = some c) (h1 : 1 ≤ c) :
    RAction.emitReconnect n c 0 ∈ (acceptConnection s sock n o).2 ∧
    mget (acceptConnection s sock n o).1.connectionCounts n = some (c + 1) := by
  constructor
  · rw [accept_acts]
    have h2 : (mget s.connectionCounts n).getD 0 + 1 > 1 := by
      rw [hc]
      simpa using h1
    simp [hc, h2]
    exact Or.inl h1
  · rw [accept_counts, mget_mset]
    simp [hc]

/-- Witness for the amended C7: name "A" reconnecting with prior count 1 gets
a reconnect notification with attempt 1 and delay 0, and the count becomes 2. -/
theorem claim_C7_amended_witness :
    RAction.emitReconnect "A" 1 0 ∈
      (acceptConnection ⟨[("A", ⟨1, 1⟩)], ["A"], [("A", 1)], [], []⟩ ⟨2, 0⟩ "A" none).2 ∧
    mget (acceptConnection ⟨[("A", ⟨1, 1⟩)], ["A"], [("A", 1)], [], []⟩
        ⟨2, 0⟩ "A" none).1.connectionCounts "A" = some 2 :=
  claim_C7_amended ⟨[("A", ⟨1, 1⟩)], ["A"], [("A", 1)], [], []⟩ ⟨2, 0⟩ "A" none 1
    (by decide) (by decide)

/-! ## Claim C8 — handshake header conflicts -/

theorem foldl_nhv_ne_empty :
    ∀ (l : List (String × String)) (acc : List (String × String)),
      (∀ k v, mget acc k = some v → v ≠ "") →
      ∀ k v, mget (l.foldl nhvStep acc) k = some v → v ≠ "" := by
  intro l
  induction l with
  | nil => intro acc h; exact h
  | cons kv rest ih =>
    intro acc h
    rw [List.foldl_cons]
    apply ih
    intro k v hkv
    by_cases h1 : kv.2 = ""
    · exact h k v (by simpa [nhvStep, h1] using hkv)
    · by_cases h2 : strTrim kv.2 = ""
      · exact h k v (by simpa [nhvStep, h1, h2] using hkv)
      · have hkv' : mget (mset acc (strToLower kv.1) (strTrim kv.2)) k = some v := by
          simpa [nhvStep, h1, h2] using hkv
        rw [mget_mset] at hkv'
        by_cases h3 : strToLower kv.1 = k
        · rw [if_pos h3] at hkv'
          cases hkv'
          exact h2
        · rw [if_neg h3] at hkv'
          exact h k v hkv'

theorem normalizeHeaderValue_ne_empty (hs : List (String × String)) (k v : String)
    (h : mget (normalizeHeaderValue hs) k = some v) : v ≠ "" :=
  foldl_nhv_ne_empty hs [] (fun _ _ hh => by simp at hh) k v h

/-- Claim C8: `buildHeaders` throws a conflict error whenever a caller value
disagrees with the protocol-mandated value for the same normalized key
(identity name, client-origin), while the authorization header is compared
after bearer-normalizing both sides — a caller value that bearer-normalizes to
the mandated token succeeds; in particular
`matchAuthorization "abc" "bearer   abc"` is true. -/
theorem claim_C8_buildHeaders :
    (∀ hs sn v, mget (normalizeHeaderValue hs) "x-self-name" = some v →
       strTrim sn ≠ "" → v ≠ strTrim sn →
       buildHeaders hs (some sn) none = Except.error "Header conflict: x-self-name") ∧
    (∀ hs v, mget (normalizeHeaderValue hs) "x-client-origin" = some v →
       v ≠ sdkClientOrigin →
       buildHeaders hs none none = Except.error "Header conflict: x-client-origin") ∧
    (∀ hs tok v, mget (normalizeHeaderValue hs) "authorization" = some v →
       mget (normalizeHeaderValue hs) "x-client-origin" = none →
       strTrim tok ≠ "" →
       (normalizeBearer v ≠ normalizeBearer (normalizeBearer (strTrim tok)) →
          buildHeaders hs none (some tok) = Except.error "Header conflict: authorization") ∧
       (normalizeBearer v = normalizeBearer (normalizeBearer (strTrim tok)) →
          ∃ out, buildHeaders hs none (some tok) = Except.ok out)) ∧
    matchAuthorization "abc" (some "bearer   abc") = true ∧
    (∃ out, buildHeaders [("authorization", "token-1")] none (some "Bearer token-1")
       = Except.ok out) ∧
    buildHeaders [("authorization", "token-1")] none (some "token-2")
      = Except.error "Header conflict: authorization" := by
  refine ⟨?_, ?_, ?_, by decide,
    ⟨[("authorization", "Bearer token-1"), ("x-client-origin", "queqiao-node-sdk")], by rfl⟩,
    by rfl⟩
  · intro hs sn v hv hsn hvne
    have hvne' : v ≠ "" := normalizeHeaderValue_ne_empty hs _ v hv
    have hnos : normalizeOptionalString (some sn) "selfName"
        = Except.ok (some (strTrim sn)) := by
      simp [normalizeOptionalString, hsn]
    have hah : assertHeaderMatch (normalizeHeaderValue hs) "x-self-name" (strTrim sn)
        = Except.error "Header conflict: x-self-name" := by
      simp [assertHeaderMatch, hv, hvne', hvne]
    simp [buildHeaders, normalizeOptionalString, hsn, hah]
  · intro hs v hv hvne
    have hvne' : v ≠ "" := normalizeHeaderValue_ne_empty hs _ v hv
    have hvne2 : ¬v = "queqiao-node-sdk" := by simpa [sdkClientOrigin] using hvne
    have hah : assertHeaderMatch (normalizeHeaderValue hs) "x-client-origin" sdkClientOrigin
        = Except.error "Header conflict: x-client-origin" := by
      simp [assertHeaderMatch, hv, hvne', hvne2, sdkClientOrigin]
    simp [buildHeaders, normalizeOptionalString, hah]
  · intro hs tok v ha hco htok
    have hva : v ≠ "" := normalizeHeaderValue_ne_empty hs _ v ha
    have hnos : normalizeOptionalString (some tok) "accessToken"
        = Except.ok (some (strTrim tok)) := by
      simp [normalizeOptionalString, htok]
    have hstep2 : assertHeaderMatch (normalizeHeaderValue hs) "x-client-origin" sdkClientOrigin
        = Except.ok () := by
      simp [assertHeaderMatch, hco]
    have hget2 : mget (mset (normalizeHeaderValue hs) "x-client-origin" sdkClientOrigin)
        "authorization" = some v := by
      rw [mget_mset]
      simp [ha]
    constructor
    · intro hne
      have hah : assertHeaderMatch
          (mset (normalizeHeaderValue hs) "x-client-origin" sdkClientOrigin)
          "authorization" (normalizeBearer (strTrim tok))
          = Except.error "Header conflict: authorization" := by
        simp [assertHeaderMatch, hget2, hva, hne]
      simp [buildHeaders, normalizeOptionalString, htok, hstep2, hah]
    · intro heq
      have hah : assertHeaderMatch
          (mset (normalizeHeaderValue hs) "x-client-origin" sdkClientOrigin)
          "authorization" (normalizeBearer (strTrim tok)) = Except.ok () := by
        simp [assertHeaderMatch, hget2, hva, heq]
      refine ⟨mset (mset (normalizeHeaderValue hs) "x-client-origin" sdkClientOrigin)
        "authorization" (normalizeBearer (strTrim tok)), ?_⟩
      simp [buildHeaders, normalizeOptionalString, htok, hstep2, hah]

/-- Witness for C8: a conflicting identity header fails; a conflicting origin
header fails; a caller authorization agreeing up to bearer normalization
succeeds while a disagreeing one fails. -/
theorem claim_C8_buildHeaders_witness :
    buildHeaders [("X-Self-Name", "Bob")] (some "Alice") none
      = Except.error "Header conflict: x-self-name" ∧
    buildHeaders [("x-client-origin", "evil")] none none
      = Except.error "Header conflict: x-client-origin" ∧
    (∃ out, buildHeaders [("authorization", "bearer   abc")] none (some "abc")
       = Except.ok out) := by
  have h := claim_C8_buildHeaders
  exact ⟨h.1 [("X-Self-Name", "Bob")] "Alice" "Bob" (by decide) (by decide) (by decide),
    h.2.1 [("x-client-origin", "evil")] "evil" (by decide) (by decide),
    (h.2.2.1 [("authorization", "bearer   abc")] "abc" "bearer   abc"
      (by decide) (by decide) (by decide)).2 (by decide)⟩

end QueQiao

namespace QueQiao

/-! ## Claim C2 — duplicate-origin rejection -/

theorem screenConnection_of_valid (cfg : ReverseConfig) (s : ReverseState)
    (normalized : List (String × String))
    (hval : (validateNormalizedHeaders normalized cfg.headerPolicy).ok = true)
    (hauth : authExplicitOk cfg normalized = true) :
    screenConnection cfg s normalized =
      if cfg.rejectDuplicateOrigin &&
          (match optNonempty (mget normalized "x-client-origin") with
           | some origin => (mget s.selfNameByOrigin origin).isSome
           | none => false) then Except.error "duplicate client origin"
      else
        match optNonempty (mget normalized "x-self-name") with
        | none => Except.error "missing x-self-name header"
        | some selfName => Except.ok selfName := by
  simp [screenConnection, hval, hauth]

/-- Counterexample to C2 as stated: a peer reconnecting under the same name
("A") and the same origin ("o") while its previous socket is still registered
IS rejected by the duplicate-origin check — the check fires whenever the
origin is mapped at all, not only when it is mapped to a different name — so
the claimed "if and only if … a different identity name" equivalence fails at
this input. -/
theorem claim_C2_counterexample :
    mget (handleConnection ⟨⟨false, none, none⟩, true⟩ emptyReverseState ⟨1, 1⟩
        [("x-self-name", "A"), ("x-client-origin", "o")]).1.selfNameByOrigin "o"
      = some "A" ∧
    optNonempty (mget (normalizeHeaderValue [("x-self-name", "A"), ("x-client-origin", "o")])
        "x-self-name") = some "A" ∧
    (handleConnection ⟨⟨false, none, none⟩, true⟩
        (handleConnection ⟨⟨false, none, none⟩, true⟩ emptyReverseState ⟨1, 1⟩
          [("x-self-name", "A"), ("x-client-origin", "o")]).1
        ⟨2, 0⟩ [("x-self-name", "A"), ("x-client-origin", "o")]).2
      = [RAction.rejectClose 1008 "duplicate client origin"] ∧
    ¬(∃ m, mget (handleConnection ⟨⟨false, none, none⟩, true⟩ emptyReverseState ⟨1, 1⟩
          [("x-self-name", "A"), ("x-client-origin", "o")]).1.selfNameByOrigin "o"
        = some m ∧ m ≠ "A") := by
  refine ⟨by decide, by decide, by decide, ?_⟩
  rintro ⟨m, hm, hne⟩
  have : m = "A" := by
    have h : some "A" = some m := by rw [← hm]; decide
    exact (Option.some.injEq _ _ ▸ h).symm
  exact hne this

/-- Claim C2 as amended: with duplicate-origin rejection enabled (and the
header validation and explicit authorization checks passing), an inbound
connection is rejected with close code 1008 and reason "duplicate client
origin" if and only if its declared origin tag is already mapped to SOME
identity name — whether the same or a different one — and after such a
rejection the server state is unchanged, so no socket is registered under the
incoming connection's name. -/
theorem claim_C2_amended (cfg : ReverseConfig) (s : ReverseState) (sock : Socket)
    (hs : List (String × String))
    (hdup : cfg.rejectDuplicateOrigin = true)
    (hval : (validateNormalizedHeaders (normalizeHeaderValue hs) cfg.headerPolicy).ok = true)
    (hauth : authExplicitOk cfg (normalizeHeaderValue hs) = true) :
    ((handleConnection cfg s sock hs).2 = [RAction.rejectClose 1008 "duplicate client origin"]
       ↔ ∃ o, optNonempty (mget (normalizeHeaderValue hs) "x-client-origin") = some o
           ∧ (mget s.selfNameByOrigin o).isSome = true) ∧
    ((handleConnection cfg s sock hs).2 = [RAction.rejectClose 1008 "duplicate client origin"]
       → (handleConnection cfg s sock hs).1 = s) := by
  have hscreen := screenConnection_of_valid cfg s (normalizeHeaderValue hs) hval hauth
  rw [hdup, Bool.true_and] at hscreen
  by_cases hD : (match optNonempty (mget (normalizeHeaderValue hs) "x-client-origin") with
      | some origin => (mget s.selfNameByOrigin origin).isSome
      | none => false) = true
  · rw [if_pos hD] at hscreen
    have hH : handleConnection cfg s sock hs
        = (s, [RAction.rejectClose 1008 "duplicate client origin"]) := by
      simp only [handleConnection, hscreen]
    rw [hH]
    constructor
    · constructor
      · intro _
        cases hoo : optNonempty (mget (normalizeHeaderValue hs) "x-client-origin") with
        | none => rw [hoo] at hD; simp at hD
        | some o2 =>
          refine ⟨o2, rfl, ?_⟩
          rw [hoo] at hD
          exact hD
      · intro _; rfl
    · intro _; rfl
  · rw [if_neg hD] at hscreen
    have hR : ∀ o, optNonempty (mget (normalizeHeaderValue hs) "x-client-origin") = some o →
        (mget s.selfNameByOrigin o).isSome = true → False := by
      intro o ho hsome
      apply hD
      rw [ho]
      exact hsome
    cases hnm : optNonempty (mget (normalizeHeaderValue hs) "x-self-name") with
    | none =>
      rw [hnm] at hscreen
      have hH : handleConnection cfg s sock hs
          = (s, [RAction.rejectClose 1008 "missing x-self-name header"]) := by
        simp only [handleConnection, hscreen]
      rw [hH]
      refine ⟨⟨fun hacts => by simp at hacts, ?_⟩, fun _ => rfl⟩
      rintro ⟨o, ho, hsome⟩
      exact absurd (hR o ho hsome) not_false
    | some nm =>
      rw [hnm] at hscreen
      have hH : handleConnection cfg s sock hs
          = acceptConnection s sock nm
              (optNonempty (mget (normalizeHeaderValue hs) "x-client-origin")) := by
        simp only [handleConnection, hscreen]
      have hacts_ne : (acceptConnection s sock nm
          (optNonempty (mget (normalizeHeaderValue hs) "x-client-origin"))).2
            ≠ [RAction.rejectClose 1008 "duplicate client origin"] := by
        rw [accept_acts]
        intro hcontra
        simp at hcontra
      rw [hH]
      refine ⟨⟨fun hacts => absurd hacts hacts_ne, ?_⟩,
        fun hacts => absurd hacts hacts_ne⟩
      rintro ⟨o, ho, hsome⟩
      exact absurd (hR o ho hsome) not_false

/-- Witness for the amended C2: origin "o" is already bound (to name "B"), so
an incoming connection declaring name "A" and origin "o" is rejected and the
state is unchanged. -/
theorem claim_C2_amended_witness :
    (handleConnection ⟨⟨false, none, none⟩, true⟩ ⟨[], [], [], [], [("o", "B")]⟩ ⟨3, 0⟩
        [("x-self-name", "A"), ("x-client-origin", "o")]).2
      = [RAction.rejectClose 1008 "duplicate client origin"] ∧
    (handleConnection ⟨⟨false, none, none⟩, true⟩ ⟨[], [], [], [], [("o", "B")]⟩ ⟨3, 0⟩
        [("x-self-name", "A"), ("x-client-origin", "o")]).1
      = ⟨[], [], [], [], [("o", "B")]⟩ := by
  have h := claim_C2_amended ⟨⟨false, none, none⟩, true⟩ ⟨[], [], [], [], [("o", "B")]⟩ ⟨3, 0⟩
      [("x-self-name", "A"), ("x-client-origin", "o")] rfl (by decide) (by decide)
  have hacts := h.1.mpr ⟨"o", by decide, by decide⟩
  exact ⟨hacts, h.2 hacts⟩

/-! ## Claim C9 — `connect()` idempotence -/

theorem rcBindFold_settled (x : Except String Unit) :
    ∀ (evs : List RevServerEvent) (r : BindRun), r.settled = some x →
      (evs.foldl rcBindStep r).settled = some x := by
  intro evs
  induction evs with
  | nil => intro r h; exact h
  | cons ev rest ih =>
    intro r h
    rw [List.foldl_cons]
    apply ih
    cases ev with
    | listening =>
      simp only [rcBindStep]
      split
      · exact h
      · simp [h, Option.orElse]
    | errored msg =>
      simp only [rcBindStep]
      split
      · exact h
      · simp [h, Option.orElse]

/-- Counterexample to C9 as stated: the reverse `connect()` creates the server
object synchronously inside the bind promise's executor, so a concurrent
second caller hits the `this.server` guard and returns immediately — it does
NOT receive (share) the in-flight bind promise (promise id 0). -/
theorem claim_C9_counterexample :
    (rcConnect ⟨false, none⟩ 0).1 = (⟨true, some 0⟩ : RCState) ∧
    rcConnect (rcConnect ⟨false, none⟩ 0).1 1
      = ((rcConnect ⟨false, none⟩ 0).1, ConnectOutcome.immediate) ∧
    (rcConnect (rcConnect ⟨false, none⟩ 0).1 1).2 ≠ ConnectOutcome.shared 0 := by
  decide

/-- Claim C9 as amended: `connect()` is idempotent in both modes. Forward:
a call returns immediately when the socket is open, concurrent calls share the
single in-flight attempt promise, and a fresh call registers a new attempt
that subsequent concurrent calls share. Reverse: a call returns immediately
once the server object exists — which is already the case for concurrent
callers during the first in-flight bind, because the server object is created
synchronously — while the stored bind promise is shared only when the server
reference was cleared (by a pre-listening error) with the promise still
pending; the bind promise rejects exactly when the bind fails before the
listening state is reached, and later server errors are logged, not thrown. -/
theorem claim_C9_amended (sf : FCState) (sr : RCState) (pid pid2 p : Nat)
    (evs : List RevServerEvent) (msg : String) :
    (fcIsOpen sf = true → fcConnect sf pid = (sf, ConnectOutcome.immediate)) ∧
    (fcIsOpen sf = false → sf.connectPromise = some p →
       fcConnect sf pid = (sf, ConnectOutcome.shared p)) ∧
    (fcIsOpen sf = false → sf.connectPromise = none →
       fcConnect sf pid = (⟨some 0, some pid, false⟩, ConnectOutcome.started pid) ∧
       fcConnect (⟨some 0, some pid, false⟩ : FCState) pid2
         = (⟨some 0, some pid, false⟩, ConnectOutcome.shared pid)) ∧
    (sr.serverExists = true → rcConnect sr pid = (sr, ConnectOutcome.immediate)) ∧
    (sr.serverExists = false → sr.connectPromise = some p →
       rcConnect sr pid = (sr, ConnectOutcome.shared p)) ∧
    (sr.serverExists = false → sr.connectPromise = none →
       rcConnect sr pid = (⟨true, some pid⟩, ConnectOutcome.started pid) ∧
       rcConnect (⟨true, some pid⟩ : RCState) pid2
         = (⟨true, some pid⟩, ConnectOutcome.immediate)) ∧
    ((rcBindEvents (RevServerEvent.errored msg :: evs)).settled
       = some (Except.error msg)) ∧
    ((rcBindEvents (RevServerEvent.listening :: evs)).settled = some (Except.ok ())) ∧
    ((∃ m, (rcBindEvents evs).settled = some (Except.error m))
       ↔ (∃ m rest, evs = RevServerEvent.errored m :: rest)) := by
  refine ⟨?_, ?_, ?_, ?_, ?_, ?_, ?_, ?_, ?_⟩
  · intro h
    simp [fcConnect, h]
  · intro h1 h2
    simp [fcConnect, h1, h2]
  · intro h1 h2
    exact ⟨by simp [fcConnect, h1, h2], by simp [fcConnect, fcIsOpen, wsOPEN]⟩
  · intro h
    simp [rcConnect, h]
  · intro h1 h2
    simp [rcConnect, h1, h2]
  · intro h1 h2
    exact ⟨by simp [rcConnect, h1, h2], by simp [rcConnect]⟩
  · rw [rcBindEvents, List.foldl_cons]
    exact rcBindFold_settled _ evs _ (by simp [rcBindStep, initialBindRun, Option.orElse])
  · rw [rcBindEvents, List.foldl_cons]
    exact rcBindFold_settled _ evs _ (by simp [rcBindStep, initialBindRun, Option.orElse])
  · constructor
    · rintro ⟨m, hm⟩
      cases evs with
      | nil => simp [rcBindEvents, initialBindRun] at hm
      | cons ev rest =>
        cases ev with
        | listening =>
          rw [rcBindEvents, List.foldl_cons] at hm
          rw [rcBindFold_settled (Except.ok ()) rest _
            (by simp [rcBindStep, initialBindRun, Option.orElse])] at hm
          simp at hm
        | errored m2 => exact ⟨m2, rest, rfl⟩
    · rintro ⟨m, rest, rfl⟩
      refine ⟨m, ?_⟩
      rw [rcBindEvents, List.foldl_cons]
      exact rcBindFold_settled _ rest _ (by simp [rcBindStep, initialBindRun, Option.orElse])

/-- Witness for the amended C9 at concrete states: an open forward socket
returns immediately; an in-flight forward attempt is shared; an existing
server returns immediately; a cleared server with a pending promise shares it;
a first-event bind error rejects with that error; a bind that reaches
listening resolves and a later error is not thrown. -/
theorem claim_C9_amended_witness :
    fcConnect ⟨some 1, none, false⟩ 5 = (⟨some 1, none, false⟩, ConnectOutcome.immediate) ∧
    fcConnect ⟨some 0, some 3, false⟩ 5 = (⟨some 0, some 3, false⟩, ConnectOutcome.shared 3) ∧
    rcConnect ⟨true, none⟩ 5 = (⟨true, none⟩, ConnectOutcome.immediate) ∧
    rcConnect ⟨false, some 4⟩ 5 = (⟨false, some 4⟩, ConnectOutcome.shared 4) ∧
    (rcBindEvents [RevServerEvent.errored "EADDRINUSE"]).settled
      = some (Except.error "EADDRINUSE") ∧
    (rcBindEvents [RevServerEvent.listening, RevServerEvent.errored "late"]).settled
      = some (Except.ok ()) := by
  exact ⟨(claim_C9_amended ⟨some 1, none, false⟩ ⟨true, none⟩ 5 6 3 [] "").1 (by decide),
    (claim_C9_amended ⟨some 0, some 3, false⟩ ⟨true, none⟩ 5 6 3 [] "").2.1 (by decide) rfl,
    (claim_C9_amended ⟨some 1, none, false⟩ ⟨true, none⟩ 5 6 3 [] "").2.2.2.1 rfl,
    (claim_C9_amended ⟨some 1, none, false⟩ ⟨false, some 4⟩ 5 6 4 [] "").2.2.2.2.1 rfl rfl,
    (claim_C9_amended ⟨some 1, none, false⟩ ⟨true, none⟩ 5 6 3 [] "EADDRINUSE").2.2.2.2.2.2.1,
    (claim_C9_amended ⟨some 1, none, false⟩ ⟨true, none⟩ 5 6 3
      [RevServerEvent.errored "late"] "").2.2.2.2.2.2.2.1⟩

end QueQiao
